import Mathlib

/-!
Verification of the AutoStartStop lambda (src/main.py) against its
natural-language specification.  The Python source is shallowly embedded:
pure data manipulation becomes Lean functions, provider (boto3) calls become
events recorded in a trace, and the cloud-side state visible to the program
is an explicit environment record.
-/

namespace AutoStartStop

/-- The node-group capacity triple, as held in the `scalingConfig` field of a
`describe_nodegroup` response: `{minSize, maxSize, desiredSize}`. -/
structure ScalingDescriptor where
  minSize : Nat
  maxSize : Nat
  desiredSize : Nat
deriving DecidableEq, Repr

/-! ## Decimal rendering of naturals (Python `json.dumps` integer output) -/

/-- The ASCII character for a single decimal digit. -/
def digitChar : Nat → Char
  | 0 => '0'
  | 1 => '1'
  | 2 => '2'
  | 3 => '3'
  | 4 => '4'
  | 5 => '5'
  | 6 => '6'
  | 7 => '7'
  | 8 => '8'
  | 9 => '9'
  | _ => '?'

/-- Decimal rendering of a natural number, most significant digit first,
as produced by Python's `json.dumps` for a non-negative int. -/
def renderNat (n : Nat) : List Char :=
  if n < 10 then [digitChar n]
  else renderNat (n / 10) ++ [digitChar (n % 10)]
decreasing_by exact Nat.div_lt_self (by omega) (by omega)

/-- `json.dumps` applied to the `scalingConfig` dict of a node group, whose
keys arrive in the order minSize, maxSize, desiredSize (as documented in the
source's expected-output comments); default separators are `", "` and `": "`. -/
def json_dumps_scaling (d : ScalingDescriptor) : List Char :=
  ("\x7b\"minSize\": ").toList ++ (renderNat d.minSize ++
    ((", \"maxSize\": ").toList ++ (renderNat d.maxSize ++
      ((", \"desiredSize\": ").toList ++ (renderNat d.desiredSize ++
        ("\x7d").toList)))))

/-! ## Base64 (Python `base64.b64encode` / `base64.b64decode`) -/

/-- The standard base64 alphabet. -/
def b64chars : List Char :=
  ("ABCDEFGHIJKLMNOPQRSTUVWXYZabcdefghijklmnopqrstuvwxyz0123456789+/").toList

/-- The base64 character for a 6-bit value. -/
def b64encChar (n : Nat) : Char := b64chars.getD n '?'

/-- The base64 padding character. -/
def padChar : Char := '='

/-- `base64.b64encode` on a byte sequence (each byte a natural < 256). -/
def b64encode : List Nat → List Char
  | [] => []
  | [a] => [b64encChar (a / 4), b64encChar (a % 4 * 16), padChar, padChar]
  | [a, b] => [b64encChar (a / 4), b64encChar (a % 4 * 16 + b / 16),
      b64encChar (b % 16 * 4), padChar]
  | a :: b :: c :: rest =>
      b64encChar (a / 4) :: b64encChar (a % 4 * 16 + b / 16) ::
        b64encChar (b % 16 * 4 + c / 64) :: b64encChar (c % 64) :: b64encode rest

/-- Index of a character in a list of characters. -/
def findIdx : Char → List Char → Option Nat
  | _, [] => none
  | c, d :: ds => if d = c then some 0 else (findIdx c ds).map (fun k => k + 1)

/-- The 6-bit value of a base64 alphabet character. -/
def b64decVal (c : Char) : Option Nat := findIdx c b64chars

/-- `base64.b64decode` restricted to well-formed base64 text (the only inputs
this program ever produces); malformed input is reported as `none` where
Python raises `binascii.Error`. -/
def b64decode : List Char → Option (List Nat)
  | [] => some []
  | w :: x :: y :: z :: rest =>
      match b64decVal w, b64decVal x with
      | some a, some b =>
          if y = padChar then
            if z = padChar ∧ rest = [] then some [a * 4 + b / 16] else none
          else
            match b64decVal y with
            | some c =>
                if z = padChar then
                  if rest = [] then some [a * 4 + b / 16, b % 16 * 16 + c / 4]
                  else none
                else
                  match b64decVal z with
                  | some dd =>
                      match b64decode rest with
                      | some bs =>
                          some ((a * 4 + b / 16) :: (b % 16 * 16 + c / 4) ::
                            (c % 4 * 64 + dd) :: bs)
                      | none => none
                  | none => none
            | none => none
      | _, _ => none
  | _ => none

/-! ## Stripping the Python bytes-literal quoting: `str(b'...').split("'")[1]` -/

/-- The ASCII apostrophe used by Python's bytes repr. -/
def quoteChar : Char := Char.ofNat 39

/-- Python `str.split(sep)` on a character separator. -/
def pySplit (sep : Char) : List Char → List (List Char)
  | [] => [[]]
  | c :: cs =>
      match pySplit sep cs with
      | [] => [[]]
      | h :: t => if c = sep then [] :: h :: t else (c :: h) :: t

/-- Python `str(b)` for a bytes object `b` whose bytes are printable ASCII
other than the apostrophe and backslash (the base64 alphabet qualifies):
the text `b'...'` around the raw characters. -/
def pyBytesReprChars (cs : List Char) : List Char :=
  'b' :: quoteChar :: (cs ++ [quoteChar])

/-- The encoder used by the node-group stop executor (src/main.py:569-571):
JSON-serialize the live scaling config, `base64.b64encode` the UTF-8 bytes,
then take `str(encoded).split("'")[1]` to strip the bytes-literal quoting. -/
def encode_tag (d : ScalingDescriptor) : List Char :=
  let json_payload := json_dumps_scaling d
  let encrypted_payload := b64encode (json_payload.map Char.toNat)
  (pySplit quoteChar (pyBytesReprChars encrypted_payload)).getD 1 []

/-! ## JSON parsing (Python `json.loads` on the descriptor payload) -/

/-- Decimal digit test on a character. -/
def isDigitC (c : Char) : Bool := 48 ≤ c.toNat && c.toNat ≤ 57

/-- Split a character list into its maximal leading run of decimal digits
and the remainder. -/
def takeDigits : List Char → List Char × List Char
  | [] => ([], [])
  | c :: cs =>
      if isDigitC c then
        let p := takeDigits cs
        (c :: p.1, p.2)
      else ([], c :: cs)

/-- Numeric value of a list of decimal digit characters. -/
def digitsVal (ds : List Char) : Nat :=
  ds.foldl (fun acc c => acc * 10 + (c.toNat - 48)) 0

/-- Consume an expected literal from the front of the input. -/
def dropLit : List Char → List Char → Option (List Char)
  | [], s => some s
  | _ :: _, [] => none
  | a :: p, b :: s => if a = b then dropLit p s else none

/-- Parse a leading decimal number, returning its value and the remainder. -/
def parseNatField (s : List Char) : Option (Nat × List Char) :=
  let p := takeDigits s
  if p.1 = [] then none else some (digitsVal p.1, p.2)

/-- Python `json.loads` restricted to the grammar of the payloads this
program stores in the `nodegroup_scaling` tag: the serialized three-field
scaling-config object. -/
def json_loads_scaling (s : List Char) : Option ScalingDescriptor :=
  match dropLit (("\x7b\"minSize\": ").toList) s with
  | none => none
  | some s1 =>
      match parseNatField s1 with
      | none => none
      | some (m, s2) =>
          match dropLit ((", \"maxSize\": ").toList) s2 with
          | none => none
          | some s3 =>
              match parseNatField s3 with
              | none => none
              | some (mx, s4) =>
                  match dropLit ((", \"desiredSize\": ").toList) s4 with
                  | none => none
                  | some s5 =>
                      match parseNatField s5 with
                      | none => none
                      | some (dz, s6) =>
                          match dropLit (("\x7d").toList) s6 with
                          | none => none
                          | some s7 =>
                              if s7 = [] then some ⟨m, mx, dz⟩ else none

/-- The decoder used by the node-group start executor (src/main.py:516):
`json.loads(bytes.decode(base64.b64decode(bytes(tag, 'utf-8'))))`. -/
def decode_tag (cs : List Char) : Option ScalingDescriptor :=
  match b64decode cs with
  | none => none
  | some bs => json_loads_scaling (bs.map Char.ofNat)

/-- AWS tag values may contain letters, digits, spaces and the characters
`+ - = . _ : / @`. -/
def allowedTagChar (c : Char) : Bool :=
  (65 ≤ c.toNat && c.toNat ≤ 90) || (97 ≤ c.toNat && c.toNat ≤ 122) ||
    (48 ≤ c.toNat && c.toNat ≤ 57) ||
    c = '+' || c = '-' || c = '=' || c = '.' || c = '_' ||
    c = ':' || c = '/' || c = '@' || c = ' '

/-! ## Lemmas: decimal rendering and the JSON layer -/

theorem digitChar_toNat : ∀ n, n < 10 → (digitChar n).toNat = 48 + n := by decide

theorem isDigitC_digitChar : ∀ n, n < 10 → isDigitC (digitChar n) = true := by decide

theorem renderNat_digits : ∀ n : Nat, ∀ c ∈ renderNat n, isDigitC c = true := by
  intro n
  induction n using Nat.strong_induction_on with
  | _ n ih =>
    rw [renderNat]
    split
    · next h =>
      intro c hc
      simp only [List.mem_singleton] at hc
      subst hc
      exact isDigitC_digitChar n h
    · next h =>
      intro c hc
      rw [List.mem_append] at hc
      rcases hc with hc | hc
      · exact ih (n / 10) (Nat.div_lt_self (by omega) (by omega)) c hc
      · simp only [List.mem_singleton] at hc
        subst hc
        exact isDigitC_digitChar (n % 10) (Nat.mod_lt _ (by omega))

theorem renderNat_ne_nil (n : Nat) : renderNat n ≠ [] := by
  rw [renderNat]
  split <;> simp

theorem digitsVal_append_digit (xs : List Char) (c : Char) :
    digitsVal (xs ++ [c]) = digitsVal xs * 10 + (c.toNat - 48) := by
  simp [digitsVal, List.foldl_append]

theorem digitsVal_renderNat : ∀ n : Nat, digitsVal (renderNat n) = n := by
  intro n
  induction n using Nat.strong_induction_on with
  | _ n ih =>
    rw [renderNat]
    split
    · next h =>
      have hd := digitChar_toNat n h
      simp only [digitsVal, List.foldl_cons, List.foldl_nil]
      omega
    · next h =>
      rw [digitsVal_append_digit, ih (n / 10) (Nat.div_lt_self (by omega) (by omega))]
      have hd := digitChar_toNat (n % 10) (Nat.mod_lt _ (by omega))
      omega

theorem takeDigits_append (ds r : List Char)
    (h1 : ∀ c ∈ ds, isDigitC c = true)
    (h2 : ∀ c, r.head? = some c → isDigitC c = false) :
    takeDigits (ds ++ r) = (ds, r) := by
  induction ds with
  | nil =>
    simp only [List.nil_append]
    cases r with
    | nil => rfl
    | cons c cs =>
      have hc := h2 c rfl
      simp [takeDigits, hc]
  | cons d ds ih =>
    have hd := h1 d (by simp)
    have ih' := ih (fun c hc => h1 c (by simp [hc]))
    simp [takeDigits, hd, ih']

theorem dropLit_append (p r : List Char) : dropLit p (p ++ r) = some r := by
  induction p with
  | nil => rfl
  | cons a p ih => simp [dropLit, ih]

theorem parseNatField_render (n : Nat) (r : List Char)
    (h2 : ∀ c, r.head? = some c → isDigitC c = false) :
    parseNatField (renderNat n ++ r) = some (n, r) := by
  unfold parseNatField
  rw [takeDigits_append _ _ (renderNat_digits n) h2]
  simp only [if_neg (renderNat_ne_nil n), digitsVal_renderNat]

theorem head_not_digit_of_eq (L X : List Char) (c0 : Char)
    (hL : (L ++ X).head? = some c0) (hd : isDigitC c0 = false) :
    ∀ c, (L ++ X).head? = some c → isDigitC c = false := by
  intro c hc
  rw [hL] at hc
  rw [← Option.some.inj hc]
  exact hd

theorem json_roundtrip (d : ScalingDescriptor) :
    json_loads_scaling (json_dumps_scaling d) = some d := by
  have hc1 : ∀ (n : Nat) (X : List Char),
      parseNatField (renderNat n ++ ((", \"maxSize\": ").toList ++ X)) =
        some (n, (", \"maxSize\": ").toList ++ X) :=
    fun n X => parseNatField_render n _ (head_not_digit_of_eq _ _ ',' rfl (by decide))
  have hc2 : ∀ (n : Nat) (X : List Char),
      parseNatField (renderNat n ++ ((", \"desiredSize\": ").toList ++ X)) =
        some (n, (", \"desiredSize\": ").toList ++ X) :=
    fun n X => parseNatField_render n _ (head_not_digit_of_eq _ _ ',' rfl (by decide))
  have hc3 : ∀ n : Nat,
      parseNatField (renderNat n ++ ("\x7d").toList) = some (n, ("\x7d").toList) :=
    fun n => parseNatField_render n _ (fun c hc => by
      rw [show ((("\x7d").toList).head? = some (Char.ofNat 125)) from rfl] at hc
      rw [← Option.some.inj hc]
      decide)
  unfold json_loads_scaling json_dumps_scaling
  simp only [dropLit_append, hc1, hc2, hc3]
  rfl

/-! ## Lemmas: base64 -/

theorem b64decVal_encChar : ∀ n, n < 64 → b64decVal (b64encChar n) = some n := by decide

theorem b64encChar_ne_pad : ∀ n, n < 64 → b64encChar n ≠ padChar := by decide

theorem b64encChar_mem : ∀ n, n < 64 → b64encChar n ∈ b64chars := by decide

theorem chunk3Induction {P : List Nat → Prop} (h0 : P []) (h1 : ∀ a, P [a])
    (h2 : ∀ a b, P [a, b])
    (h3 : ∀ a b c rest, P rest → P (a :: b :: c :: rest)) : ∀ l, P l
  | [] => h0
  | [a] => h1 a
  | [a, b] => h2 a b
  | a :: b :: c :: rest => h3 a b c rest (chunk3Induction h0 h1 h2 h3 rest)

theorem b64_roundtrip : ∀ bs : List Nat, (∀ b ∈ bs, b < 256) →
    b64decode (b64encode bs) = some bs := by
  intro bs
  induction bs using chunk3Induction with
  | h0 => intro _; rfl
  | h1 a =>
    intro h
    have ha : a < 256 := h a (by simp)
    have d1 := b64decVal_encChar (a / 4) (by omega)
    have d2 := b64decVal_encChar (a % 4 * 16) (by omega)
    simp [b64encode, b64decode, d1, d2]
    omega
  | h2 a b =>
    intro h
    have ha : a < 256 := h a (by simp)
    have hb : b < 256 := h b (by simp)
    have d1 := b64decVal_encChar (a / 4) (by omega)
    have d2 := b64decVal_encChar (a % 4 * 16 + b / 16) (by omega)
    have d3 := b64decVal_encChar (b % 16 * 4) (by omega)
    have n3 := b64encChar_ne_pad (b % 16 * 4) (by omega)
    simp [b64encode, b64decode, d1, d2, d3, n3]
    omega
  | h3 a b c rest ih =>
    intro h
    have ha : a < 256 := h a (by simp)
    have hb : b < 256 := h b (by simp)
    have hc : c < 256 := h c (by simp)
    have d1 := b64decVal_encChar (a / 4) (by omega)
    have d2 := b64decVal_encChar (a % 4 * 16 + b / 16) (by omega)
    have d3 := b64decVal_encChar (b % 16 * 4 + c / 64) (by omega)
    have d4 := b64decVal_encChar (c % 64) (by omega)
    have n3 := b64encChar_ne_pad (b % 16 * 4 + c / 64) (by omega)
    have n4 := b64encChar_ne_pad (c % 64) (by omega)
    have ihr := ih (fun x hx => h x (by simp [hx]))
    simp [b64encode, b64decode, d1, d2, d3, d4, n3, n4, ihr]
    omega

theorem b64encode_chars : ∀ bs : List Nat, (∀ b ∈ bs, b < 256) →
    ∀ ch ∈ b64encode bs, ch ∈ b64chars ∨ ch = padChar := by
  intro bs
  induction bs using chunk3Induction with
  | h0 =>
    intro _ ch hch
    simp [b64encode] at hch
  | h1 a =>
    intro h ch hch
    have ha : a < 256 := h a (by simp)
    simp only [b64encode, List.mem_cons, List.not_mem_nil, or_false] at hch
    rcases hch with rfl | rfl | rfl | rfl
    · exact Or.inl (b64encChar_mem _ (by omega))
    · exact Or.inl (b64encChar_mem _ (by omega))
    · exact Or.inr rfl
    · exact Or.inr rfl
  | h2 a b =>
    intro h ch hch
    have ha : a < 256 := h a (by simp)
    have hb : b < 256 := h b (by simp)
    simp only [b64encode, List.mem_cons, List.not_mem_nil, or_false] at hch
    rcases hch with rfl | rfl | rfl | rfl
    · exact Or.inl (b64encChar_mem _ (by omega))
    · exact Or.inl (b64encChar_mem _ (by omega))
    · exact Or.inl (b64encChar_mem _ (by omega))
    · exact Or.inr rfl
  | h3 a b c rest ih =>
    intro h ch hch
    have ha : a < 256 := h a (by simp)
    have hb : b < 256 := h b (by simp)
    have hc : c < 256 := h c (by simp)
    simp only [b64encode, List.mem_cons] at hch
    rcases hch with rfl | rfl | rfl | rfl | hch
    · exact Or.inl (b64encChar_mem _ (by omega))
    · exact Or.inl (b64encChar_mem _ (by omega))
    · exact Or.inl (b64encChar_mem _ (by omega))
    · exact Or.inl (b64encChar_mem _ (by omega))
    · exact ih (fun x hx => h x (by simp [hx])) ch hch

/-! ## Lemmas: the bytes-literal strip and the full codec -/

theorem pySplit_append_quote (cs : List Char) (h : quoteChar ∉ cs) :
    pySplit quoteChar (cs ++ [quoteChar]) = [cs, []] := by
  induction cs with
  | nil => rfl
  | cons c cs ih =>
    have hc : c ≠ quoteChar := by
      intro e
      exact h (by simp [e])
    have ih' := ih (fun m => h (by simp [m]))
    simp [pySplit, ih', hc]

theorem pySplit_bytesRepr (cs : List Char) (h : quoteChar ∉ cs) :
    pySplit quoteChar (pyBytesReprChars cs) = [['b'], cs, []] := by
  unfold pyBytesReprChars
  have hb : ('b' : Char) ≠ quoteChar := by decide
  simp [pySplit, pySplit_append_quote cs h, hb]

theorem toNat_lt_of_digit (c : Char) (h : isDigitC c = true) : c.toNat < 256 := by
  unfold isDigitC at h
  simp only [Bool.and_eq_true, decide_eq_true_eq] at h
  omega

theorem json_bytes_lt (d : ScalingDescriptor) :
    ∀ x ∈ (json_dumps_scaling d).map Char.toNat, x < 256 := by
  intro x hx
  rw [List.mem_map] at hx
  rcases hx with ⟨c, hc, rfl⟩
  unfold json_dumps_scaling at hc
  simp only [List.mem_append] at hc
  have lit1 : ∀ c ∈ (("\x7b\"minSize\": ").toList), c.toNat < 256 := by decide
  have lit2 : ∀ c ∈ ((", \"maxSize\": ").toList), c.toNat < 256 := by decide
  have lit3 : ∀ c ∈ ((", \"desiredSize\": ").toList), c.toNat < 256 := by decide
  have lit4 : ∀ c ∈ (("\x7d").toList), c.toNat < 256 := by decide
  rcases hc with hc | hc | hc | hc | hc | hc | hc
  · exact lit1 c hc
  · exact toNat_lt_of_digit c (renderNat_digits _ c hc)
  · exact lit2 c hc
  · exact toNat_lt_of_digit c (renderNat_digits _ c hc)
  · exact lit3 c hc
  · exact toNat_lt_of_digit c (renderNat_digits _ c hc)
  · exact lit4 c hc

theorem encode_tag_eq (d : ScalingDescriptor) :
    encode_tag d = b64encode ((json_dumps_scaling d).map Char.toNat) := by
  unfold encode_tag
  have hq : quoteChar ∉ b64encode ((json_dumps_scaling d).map Char.toNat) := by
    intro hmem
    rcases b64encode_chars _ (json_bytes_lt d) _ hmem with hin | hpad
    · revert hin
      decide
    · revert hpad
      decide
  show (pySplit quoteChar
      (pyBytesReprChars (b64encode ((json_dumps_scaling d).map Char.toNat)))).getD 1 [] = _
  rw [pySplit_bytesRepr _ hq]
  rfl

theorem encode_decode_roundtrip (d : ScalingDescriptor) :
    decode_tag (encode_tag d) = some d := by
  rw [encode_tag_eq]
  unfold decode_tag
  rw [b64_roundtrip _ (json_bytes_lt d)]
  show json_loads_scaling (((json_dumps_scaling d).map Char.toNat).map Char.ofNat) = some d
  rw [List.map_map,
    List.map_congr_left (fun c _ => by
      show (Char.ofNat ∘ Char.toNat) c = id c
      simp [Char.ofNat_toNat]),
    List.map_id]
  exact json_roundtrip d

theorem b64chars_allowed : ∀ c ∈ b64chars, allowedTagChar c = true := by decide

theorem encode_tag_allowed (d : ScalingDescriptor) :
    (encode_tag d).all allowedTagChar = true := by
  rw [encode_tag_eq, List.all_eq_true]
  intro c hcm
  rcases b64encode_chars _ (json_bytes_lt d) c hcm with hin | rfl
  · exact b64chars_allowed c hin
  · decide

/-- C1: for every valid ScalingDescriptor d (minSize is a Nat hence
non-negative, maxSize ≥ minSize, desiredSize within [minSize, maxSize]),
the node-group start executor's decoder applied to the stop executor's
encoding of d yields d exactly, and every character of the encoded token
lies in the provider's tag-value alphabet. -/
theorem c1_codec_exact_inverse (d : ScalingDescriptor)
    (_h1 : d.minSize ≤ d.maxSize) (_h2 : d.minSize ≤ d.desiredSize)
    (_h3 : d.desiredSize ≤ d.maxSize) :
    decode_tag (encode_tag d) = some d ∧
      (encode_tag d).all allowedTagChar = true :=
  ⟨encode_decode_roundtrip d, encode_tag_allowed d⟩

/-- Witness for c1_codec_exact_inverse at the concrete descriptor
{minSize 1, maxSize 5, desiredSize 2}. -/
theorem c1_codec_exact_inverse_witness :
    ((1 : Nat) ≤ 5 ∧ (1 : Nat) ≤ 2 ∧ (2 : Nat) ≤ 5) ∧
      (decode_tag (encode_tag ⟨1, 5, 2⟩) = some ⟨1, 5, 2⟩ ∧
        (encode_tag ⟨1, 5, 2⟩).all allowedTagChar = true) :=
  ⟨by decide, c1_codec_exact_inverse ⟨1, 5, 2⟩ (by decide) (by decide) (by decide)⟩

/-! ## Provider model: cloud-side state and the calls the program makes -/

/-- A located node group: the cluster name and node-group name parsed out of
the resource ARN by the locator. -/
structure Nodegroup where
  cluster : String
  nodegroupname : String
deriving DecidableEq, Repr

/-- The fields of a `describe_db_instances` response this program reads. -/
structure DbDescription where
  status : String
  engine : String
  multiAZ : Bool
deriving DecidableEq, Repr

/-- The fields of a `describe_nodegroup` response this program reads. -/
structure NgDescription where
  scalingConfig : ScalingDescriptor
  tags : List (String × String)
  arn : String
deriving DecidableEq, Repr

/-- Lookup in a tag dictionary: Python `tags.get(key)`. -/
def tagsGet (tags : List (String × String)) (k : String) : Option String :=
  (tags.find? (fun p => p.1 == k)).map Prod.snd

/-- One provider API call, as recorded in an execution trace. -/
inductive Ev where
  | describeInstanceStatus (id : String) : Ev
  | startInstances (ids : List String) : Ev
  | stopInstances (ids : List String) : Ev
  | describeDb (id : String) : Ev
  | startDb (id : String) : Ev
  | stopDb (id : String) : Ev
  | describeNg (ng : Nodegroup) : Ev
  | tagResource (arn : String) (key : String) (value : List Char) : Ev
  | updateNgConfig (ng : Nodegroup) (cfg : ScalingDescriptor) : Ev
  | getResources (resourceType : String) : Ev
deriving DecidableEq, Repr

/-- The cloud-side state an invocation observes: the locator results for each
resource category and the live descriptions returned by the describe calls,
plus the account id and timestamp used in the response envelope. -/
structure Env where
  taggedInstances : List String
  taggedDbs : List String
  taggedNodegroups : List Nodegroup
  instanceStatuses : String → List String
  dbDescr : String → DbDescription
  ngDescr : Nodegroup → NgDescription
  awsId : String
  timeStr : String

/-! ## The filter loops: iterate over the located list, `remove` from a copy -/

/-- Python `list.remove(x)`: delete the first occurrence of `x`.  (Python
raises `ValueError` when `x` is absent; every call site in this program
removes an element known to be present.) -/
def pyRemove [DecidableEq α] (x : α) : List α → List α
  | [] => []
  | y :: ys => if y = x then ys else y :: pyRemove x ys

/-- The source's filtering idiom: iterate over the located list and remove
each element failing the check from a copy of the list. -/
def removeLoop [DecidableEq α] (bad : α → Bool) (l : List α) : List α :=
  l.foldl (fun acc x => if bad x then pyRemove x acc else acc) l

theorem pyRemove_append_left [DecidableEq α] (x : α) (l₁ l₂ : List α)
    (h : x ∉ l₁) : pyRemove x (l₁ ++ l₂) = l₁ ++ pyRemove x l₂ := by
  induction l₁ with
  | nil => rfl
  | cons y ys ih =>
    have hy : y ≠ x := by
      intro e
      exact h (by simp [e])
    simp [pyRemove, hy, ih (fun m => h (by simp [m]))]

theorem foldl_remove_eq_filter [DecidableEq α] (bad : α → Bool) :
    ∀ (p fp : List α), (∀ y ∈ fp, bad y = false) →
      p.foldl (fun acc x => if bad x then pyRemove x acc else acc) (fp ++ p) =
        fp ++ p.filter (fun x => !bad x) := by
  intro p
  induction p with
  | nil =>
    intro fp _
    simp
  | cons x p ih =>
    intro fp hfp
    by_cases hx : bad x = true
    · have hnm : x ∉ fp := by
        intro m
        rw [hfp x m] at hx
        cases hx
      rw [List.foldl_cons, if_pos hx, pyRemove_append_left x fp (x :: p) hnm]
      have : pyRemove x (x :: p) = p := by simp [pyRemove]
      rw [this, ih fp hfp]
      simp [List.filter_cons, hx]
    · have hx' : bad x = false := by
        cases hb : bad x
        · rfl
        · exact absurd hb hx
      rw [List.foldl_cons, if_neg hx]
      have assoc : fp ++ x :: p = (fp ++ [x]) ++ p := by simp
      rw [assoc, ih (fp ++ [x]) (by
        intro y hy
        rcases List.mem_append.mp hy with hy | hy
        · exact hfp y hy
        · simp only [List.mem_singleton] at hy
          subst hy
          exact hx')]
      simp [List.filter_cons, hx']

theorem removeLoop_eq_filter [DecidableEq α] (bad : α → Bool) (l : List α) :
    removeLoop bad l = l.filter (fun x => !bad x) := by
  have h := foldl_remove_eq_filter bad l [] (by intro y hy; cases hy)
  simpa [removeLoop] using h

/-! ## Action executors: compute instances (EC2) -/

/-- Python `lst == False` where `lst` is a list: always False, because in
Python a list never compares equal to a bool.  This is the comparison at
src/main.py:323 in `auto_stop_instance`. -/
def pyListEqFalse (_l : List String) : Bool := false

/-- `auto_start_instance` (src/main.py:233-293): describe each located
instance; an instance whose `InstanceStatuses` list is non-empty (truthy) is
removed from the copy; a single batched `start_instances` call is issued for
the survivors (the provider echoes one `StartingInstances` entry per requested
id).  When the surviving list is empty the function only prints and falls off
the end, returning Python `None`. -/
def auto_start_instance (env : Env) (instances : List String) :
    List Ev × Option (List String) :=
  let instances_should_be_started :=
    removeLoop (fun i => !(env.instanceStatuses i).isEmpty) instances
  let evs := instances.map Ev.describeInstanceStatus
  if instances_should_be_started.length = 0 then (evs, none)
  else (evs ++ [Ev.startInstances instances_should_be_started],
    some instances_should_be_started)

/-- `auto_stop_instance` (src/main.py:295-353): same shape, but the removal
condition is the Python expression `InstanceStatuses == False`, which is
never true for a list. -/
def auto_stop_instance (env : Env) (instances : List String) :
    List Ev × Option (List String) :=
  let instances_should_be_stopped :=
    removeLoop (fun i => pyListEqFalse (env.instanceStatuses i)) instances
  let evs := instances.map Ev.describeInstanceStatus
  if instances_should_be_stopped.length = 0 then (evs, none)
  else (evs ++ [Ev.stopInstances instances_should_be_stopped],
    some instances_should_be_stopped)

/-! ## Action executors: database instances (RDS) -/

/-- `auto_start_dbinstance` (src/main.py:355-413): keep only instances whose
status is exactly "stopped"; issue one `start_db_instance` call per survivor,
collecting the echoed identifiers. -/
def auto_start_dbinstance (env : Env) (dbinstances : List String) :
    List Ev × List String :=
  let kept := removeLoop (fun i => (env.dbDescr i).status != "stopped") dbinstances
  (dbinstances.map Ev.describeDb ++ kept.map Ev.startDb, kept)

/-- The removal condition of `auto_stop_dbinstance` (src/main.py:436-444):
remove when MultiAZ and the engine matches the regex `^sqlserver.*`;
otherwise remove when the status is not "available". -/
def dbStopBad (dd : DbDescription) : Bool :=
  if dd.multiAZ && dd.engine.startsWith ("sqlserver") then true
  else if dd.status != "available" then true
  else false

/-- `auto_stop_dbinstance` (src/main.py:415-478). -/
def auto_stop_dbinstance (env : Env) (dbinstances : List String) :
    List Ev × List String :=
  let kept := removeLoop (fun i => dbStopBad (env.dbDescr i)) dbinstances
  (dbinstances.map Ev.describeDb ++ kept.map Ev.stopDb, kept)

/-! ## Filter claims for the EC2 and RDS executors -/

/-- The post-filter list of the compute-instance start executor as the spec
describes it: exactly the located instances with no status record. -/
def ec2StartKept (env : Env) (instances : List String) : List String :=
  instances.filter (fun i => (env.instanceStatuses i).isEmpty)

/-- C9: the compute-instance start executor excludes every instance whose
describe-status list is non-empty and batches a start call for exactly the
instances whose describe-status list is empty. -/
theorem c9_ec2_start_filter (env : Env) (instances : List String) :
    auto_start_instance env instances =
      (instances.map Ev.describeInstanceStatus ++
        (if ec2StartKept env instances = [] then []
         else [Ev.startInstances (ec2StartKept env instances)]),
       if ec2StartKept env instances = [] then none
       else some (ec2StartKept env instances)) := by
  unfold auto_start_instance ec2StartKept
  rw [removeLoop_eq_filter]
  simp only [Bool.not_not, List.length_eq_zero]
  split
  · next h => simp [h]
  · next h => simp [h]

/-- Helper: the compute-instance stop executor removes nothing at all, since
the Python comparison `InstanceStatuses == False` never holds for a list. -/
theorem ec2_stop_removes_nothing (env : Env) (instances : List String) :
    auto_stop_instance env instances =
      (instances.map Ev.describeInstanceStatus ++
        (if instances = [] then [] else [Ev.stopInstances instances]),
       if instances = [] then none else some instances) := by
  unfold auto_stop_instance
  rw [removeLoop_eq_filter]
  simp only [pyListEqFalse, Bool.not_false, List.filter_true, List.length_eq_zero]
  split
  · next h => simp [h]
  · next h => simp [h]

/-- Cloud state for the two-instance stop scenario: "i-a" has no status
record (already stopped), "i-b" has a live status record (running). -/
def envC3 : Env where
  taggedInstances := ["i-a", "i-b"]
  taggedDbs := []
  taggedNodegroups := []
  instanceStatuses := fun i => if i = "i-b" then ["running"] else []
  dbDescr := fun _ => ⟨"available", "mysql", false⟩
  ngDescr := fun _ => ⟨⟨1, 5, 2⟩, [], "arn"⟩
  awsId := "123456789012"
  timeStr := "01 Jan 2026 - 00:00"

/-- C3 (code-bug evidence): on a located list with one already-stopped
instance ("i-a", empty status list) and one running instance ("i-b"), the
stop executor keeps BOTH in the batched stop call — the already-stopped
instance is not excluded, contradicting the claim, because the source
compares the status list with the boolean False. -/
theorem c3_stop_filter_code_behavior :
    auto_stop_instance envC3 ["i-a", "i-b"] =
      ([Ev.describeInstanceStatus "i-a", Ev.describeInstanceStatus "i-b",
        Ev.stopInstances ["i-a", "i-b"]],
       some ["i-a", "i-b"]) := by decide

/-- The spec-side keep predicate for database stop: not (MultiAZ and a
sqlserver-family engine), and status exactly "available". -/
def dbStopKeep (dd : DbDescription) : Bool :=
  !(dd.multiAZ && dd.engine.startsWith ("sqlserver")) && (dd.status == "available")

theorem dbStopBad_not (dd : DbDescription) : (!dbStopBad dd) = dbStopKeep dd := by
  cases hm : (dd.multiAZ && dd.engine.startsWith ("sqlserver")) <;>
    cases hs : (dd.status == "available") <;>
    simp [dbStopBad, dbStopKeep, hm, hs, bne]

/-- C7: the database stop executor excludes MultiAZ sqlserver-family
instances and instances whose status is not exactly "available", and issues
a stop call for exactly the remaining instances. -/
theorem c7_db_stop_filter (env : Env) (dbinstances : List String) :
    auto_stop_dbinstance env dbinstances =
      (dbinstances.map Ev.describeDb ++
        (dbinstances.filter (fun i => dbStopKeep (env.dbDescr i))).map Ev.stopDb,
       dbinstances.filter (fun i => dbStopKeep (env.dbDescr i))) := by
  unfold auto_stop_dbinstance
  rw [removeLoop_eq_filter]
  simp only [dbStopBad_not]

/-- C8: the database start executor issues a start call for exactly the
instances whose live status string equals "stopped". -/
theorem c8_db_start_filter (env : Env) (dbinstances : List String) :
    auto_start_dbinstance env dbinstances =
      (dbinstances.map Ev.describeDb ++
        (dbinstances.filter
          (fun i => (env.dbDescr i).status == "stopped")).map Ev.startDb,
       dbinstances.filter (fun i => (env.dbDescr i).status == "stopped")) := by
  unfold auto_start_dbinstance
  rw [removeLoop_eq_filter]
  simp only [bne, Bool.not_not]

/-! ## Action executors: EKS node groups -/

/-- The zero-capacity scaling config applied by the stop executor
(src/main.py:614-618). -/
def zeroScaling : ScalingDescriptor := ⟨0, 1, 0⟩

/-- Python truthiness of `tags.get(key)`: `None` and the empty string are
falsy, any other string truthy. -/
def pyTruthy : Option String → Bool
  | none => false
  | some s => s != ""

/-- The tag-write calls one node group triggers during stop
(src/main.py:578-608): the tag is written when absent (the `== None` branch)
and when present and truthy (the `elif` branch); an existing empty-string
tag value falls through both branches, so no write happens. -/
def ngStopTagEvents (env : Env) (ng : Nodegroup) : List Ev :=
  let cfg := env.ngDescr ng
  if tagsGet cfg.tags "nodegroup_scaling" = none then
    [Ev.tagResource cfg.arn "nodegroup_scaling" (encode_tag cfg.scalingConfig)]
  else if pyTruthy (tagsGet cfg.tags "nodegroup_scaling") then
    [Ev.tagResource cfg.arn "nodegroup_scaling" (encode_tag cfg.scalingConfig)]
  else []

/-- `auto_stop_eks_nodegroup` (src/main.py:539-631): for each node group in
order, describe it, encode its live scaling config, perform the tag write
(per `ngStopTagEvents`), then update the scaling config to {0, 1, 0} and
record the node group as stopped. -/
def auto_stop_eks_nodegroup (env : Env) : List Nodegroup → List Ev × List Nodegroup
  | [] => ([], [])
  | ng :: rest =>
      let r := auto_stop_eks_nodegroup env rest
      (Ev.describeNg ng ::
        (ngStopTagEvents env ng ++ (Ev.updateNgConfig ng zeroScaling :: r.1)),
       ng :: r.2)

/-- `auto_start_eks_nodegroup` (src/main.py:480-537): for each node group,
describe it; when the `nodegroup_scaling` tag is absent only log and move on;
when it is present and truthy, decode it (a `json.loads` failure raises,
modelled as `Except.error`) and update the scaling config to the decoded
values, recording the node group as started.  An existing empty-string tag
value is skipped like an absent one (falsy `elif`). -/
def auto_start_eks_nodegroup (env : Env) :
    List Nodegroup → Except String (List Ev × List Nodegroup)
  | [] => Except.ok ([], [])
  | ng :: rest =>
      let cfg := env.ngDescr ng
      match tagsGet cfg.tags "nodegroup_scaling" with
      | none =>
          (auto_start_eks_nodegroup env rest).map
            (fun r => (Ev.describeNg ng :: r.1, r.2))
      | some s =>
          if s = "" then
            (auto_start_eks_nodegroup env rest).map
              (fun r => (Ev.describeNg ng :: r.1, r.2))
          else
            match decode_tag s.toList with
            | none => Except.error "json.loads"
            | some sc =>
                (auto_start_eks_nodegroup env rest).map
                  (fun r => (Ev.describeNg ng :: Ev.updateNgConfig ng sc :: r.1,
                    ng :: r.2))

/-! ## Node-group stop ordering (C2) and start skip (C5) -/

/-- C2 (amended): for every node group whose existing `nodegroup_scaling`
tag is absent or has a non-empty value, every zero-capacity update for that
node group in the stop executor's trace is preceded by a tag write carrying
the encoding of that node group's live scaling config, and that encoding
decodes back to the pre-stop descriptor.  Other node groups in the same run
are unconstrained, so mixed runs are covered. -/
theorem c2_tag_write_precedes_zero_update (env : Env) (ngs : List Nodegroup)
    (ng : Nodegroup) (j : Nat)
    (h : tagsGet (env.ngDescr ng).tags "nodegroup_scaling" ≠ some "")
    (hj : ((auto_stop_eks_nodegroup env ngs).1)[j]? =
      some (Ev.updateNgConfig ng zeroScaling)) :
    ∃ i, i < j ∧
      ((auto_stop_eks_nodegroup env ngs).1)[i]? =
        some (Ev.tagResource (env.ngDescr ng).arn "nodegroup_scaling"
          (encode_tag (env.ngDescr ng).scalingConfig)) ∧
      decode_tag (encode_tag (env.ngDescr ng).scalingConfig) =
        some (env.ngDescr ng).scalingConfig := by
  induction ngs generalizing j with
  | nil => simp [auto_stop_eks_nodegroup] at hj
  | cons g rest ih =>
    by_cases hg : tagsGet (env.ngDescr g).tags "nodegroup_scaling" = some ""
    · have htagev : ngStopTagEvents env g = [] := by
        unfold ngStopTagEvents
        simp [hg, pyTruthy]
      have htr : (auto_stop_eks_nodegroup env (g :: rest)).1 =
          Ev.describeNg g ::
            Ev.updateNgConfig g zeroScaling ::
            (auto_stop_eks_nodegroup env rest).1 := by
        show Ev.describeNg g ::
            (ngStopTagEvents env g ++
              (Ev.updateNgConfig g zeroScaling ::
                (auto_stop_eks_nodegroup env rest).1)) = _
        rw [htagev]
        rfl
      rw [htr] at hj ⊢
      rcases j with _ | j1
      · simp at hj
      rcases j1 with _ | k
      · simp only [List.getElem?_cons_succ, List.getElem?_cons_zero] at hj
        have hge : g = ng := by
          simpa using hj
        subst hge
        exact absurd hg h
      · simp only [List.getElem?_cons_succ] at hj
        rcases ih k hj with ⟨i, hik, hit, hdec⟩
        refine ⟨i + 2, by omega, ?_, hdec⟩
        simpa [List.getElem?_cons_succ] using hit
    · have htagev : ngStopTagEvents env g =
          [Ev.tagResource (env.ngDescr g).arn "nodegroup_scaling"
            (encode_tag (env.ngDescr g).scalingConfig)] := by
        unfold ngStopTagEvents
        cases htg : tagsGet (env.ngDescr g).tags "nodegroup_scaling" with
        | none => simp [htg]
        | some s =>
          have hs : s ≠ "" := by
            intro e
            subst e
            exact hg htg
          simp [htg, pyTruthy, hs]
      have htr : (auto_stop_eks_nodegroup env (g :: rest)).1 =
          Ev.describeNg g ::
            Ev.tagResource (env.ngDescr g).arn "nodegroup_scaling"
              (encode_tag (env.ngDescr g).scalingConfig) ::
            Ev.updateNgConfig g zeroScaling ::
            (auto_stop_eks_nodegroup env rest).1 := by
        show Ev.describeNg g ::
            (ngStopTagEvents env g ++
              (Ev.updateNgConfig g zeroScaling ::
                (auto_stop_eks_nodegroup env rest).1)) = _
        rw [htagev]
        rfl
      rw [htr] at hj ⊢
      rcases j with _ | j1
      · simp at hj
      rcases j1 with _ | j2
      · simp at hj
      rcases j2 with _ | k
      · simp only [List.getElem?_cons_succ, List.getElem?_cons_zero] at hj
        have hge : g = ng := by
          simpa using hj
        subst hge
        exact ⟨1, by omega, by simp, encode_decode_roundtrip _⟩
      · simp only [List.getElem?_cons_succ] at hj
        rcases ih k hj with ⟨i, hik, hit, hdec⟩
        refine ⟨i + 3, by omega, ?_, hdec⟩
        simpa [List.getElem?_cons_succ] using hit

/-- The node group of the C2 counterexample. -/
def ngC2 : Nodegroup := ⟨"clusterA", "ngA"⟩

/-- Cloud state for the C2 counterexample: the node group already carries a
`nodegroup_scaling` tag whose value is the empty string. -/
def envC2 : Env where
  taggedInstances := []
  taggedDbs := []
  taggedNodegroups := [ngC2]
  instanceStatuses := fun _ => []
  dbDescr := fun _ => ⟨"available", "mysql", false⟩
  ngDescr := fun _ => ⟨⟨1, 5, 2⟩, [("nodegroup_scaling", "")], "arn:ngA"⟩
  awsId := "123456789012"
  timeStr := "01 Jan 2026 - 00:00"

/-- Test for a tag-write event. -/
def isTagWrite : Ev → Bool
  | Ev.tagResource _ _ _ => true
  | _ => false

/-- C2 counterexample: a node group whose existing `nodegroup_scaling` tag
value is the empty string receives the zero-capacity update while the trace
contains no tag write at all, refuting "the zero-capacity update is never
issued before the tag write in any execution". -/
theorem c2_counterexample :
    Ev.updateNgConfig ngC2 zeroScaling ∈ (auto_stop_eks_nodegroup envC2 [ngC2]).1 ∧
      (auto_stop_eks_nodegroup envC2 [ngC2]).1.all (fun e => !isTagWrite e) = true := by
  decide

/-- A node group with no `nodegroup_scaling` tag, for the mixed C2 run. -/
def ngAbsent : Nodegroup := ⟨"clusterA", "ngB"⟩

/-- A mixed cloud state: `ngC2` already carries an empty-string
`nodegroup_scaling` tag, while `ngAbsent` has no such tag. -/
def envMixed : Env where
  taggedInstances := []
  taggedDbs := []
  taggedNodegroups := [ngC2, ngAbsent]
  instanceStatuses := fun _ => []
  dbDescr := fun _ => ⟨"available", "mysql", false⟩
  ngDescr := fun g =>
    if g = ngC2 then ⟨⟨1, 5, 2⟩, [("nodegroup_scaling", "")], "arn:ngA"⟩
    else ⟨⟨3, 7, 4⟩, [], "arn:ngB"⟩
  awsId := "123456789012"
  timeStr := "01 Jan 2026 - 00:00"

/-- Witness for c2_tag_write_precedes_zero_update on a mixed run: the first
node group carries an empty-string tag (its update at index 1 gets no write),
yet the absent-tag node group's zero update, at index 4, is still preceded by
its tag write at index 3. -/
theorem c2_tag_write_precedes_zero_update_witness :
    ∃ i, i < 4 ∧
      ((auto_stop_eks_nodegroup envMixed [ngC2, ngAbsent]).1)[i]? =
        some (Ev.tagResource (envMixed.ngDescr ngAbsent).arn "nodegroup_scaling"
          (encode_tag (envMixed.ngDescr ngAbsent).scalingConfig)) ∧
      decode_tag (encode_tag (envMixed.ngDescr ngAbsent).scalingConfig) =
        some (envMixed.ngDescr ngAbsent).scalingConfig :=
  c2_tag_write_precedes_zero_update envMixed [ngC2, ngAbsent] ngAbsent 4
    (by decide) (by decide)

/-- C5: a node group whose tags do not contain the `nodegroup_scaling` key is
skipped by the start executor: it contributes only its describe call,
triggers no scaling-config mutation, is not recorded as started, raises no
error, and processing continues with the remaining node groups. -/
theorem c5_start_missing_tag_skipped (env : Env) (ng : Nodegroup)
    (rest : List Nodegroup)
    (h : tagsGet (env.ngDescr ng).tags "nodegroup_scaling" = none) :
    auto_start_eks_nodegroup env (ng :: rest) =
      (auto_start_eks_nodegroup env rest).map
        (fun r => (Ev.describeNg ng :: r.1, r.2)) := by
  simp [auto_start_eks_nodegroup, h]

/-- Witness for c5_start_missing_tag_skipped: a singleton run against a node
group carrying only the selector tag. -/
theorem c5_start_missing_tag_skipped_witness :
    auto_start_eks_nodegroup envC3 [ngC2] =
      (auto_start_eks_nodegroup envC3 []).map
        (fun r => (Ev.describeNg ngC2 :: r.1, r.2)) :=
  c5_start_missing_tag_skipped envC3 ngC2 [] (by decide)

/-! ## The dispatcher: payload validation, response envelope, routing -/

/-- The `details` object of the invocation event. -/
structure Details where
  automation : String
  resource : String
  tagKey : String
  tagValue : String
deriving DecidableEq, Repr

/-- The single recognized tag key (src/main.py:635). -/
def tagKeyList : List String := ["DCP/AutoStartStop"]

/-- The six recognized tag values (src/main.py:636). -/
def tagValueList : List String :=
  ["OfficeHour", "ExtendedOfficeHour1", "ExtendedOfficeHour2",
   "UpperHalf", "LowerHalf", "RecurringStop"]

/-- `check_payload_tag` (src/main.py:633-649): `list.index` raising
`ValueError` on a missing entry becomes the error field of the returned
payload; the key is checked first. -/
def check_payload_tag (d : Details) : String :=
  if !(tagKeyList.contains d.tagKey) then "Invalid Tag Key"
  else if !(tagValueList.contains d.tagValue) then "Invalid Tag Value"
  else ""

/-- A JSON value appearing in the `ResourceList` field: Python `None`
serializes to `null`; the executors otherwise return a list of instance /
database identifiers or of node-group dicts. -/
inductive JVal where
  | jnull : JVal
  | jstrs (l : List String) : JVal
  | jngs (l : List Nodegroup) : JVal
deriving DecidableEq, Repr

/-- The response envelope; `Action` and `ResourceList` are `none` exactly
when the serialized dict omits those keys (the failure envelope at
src/main.py:669-673 and 707-711). -/
structure Envelope where
  Status : String
  AWS_ID : String
  Time : String
  Action : Option String
  ResourceList : Option JVal
deriving DecidableEq, Repr

/-- `response` (src/main.py:652-660): the success envelope. -/
def response (env : Env) (action : String) (l : JVal) : Envelope :=
  ⟨"Successful", env.awsId, env.timeStr, some action, some l⟩

/-- The failure envelope (src/main.py:669-673): only Status, AWS_ID, Time. -/
def failedResponse (env : Env) : Envelope :=
  ⟨"Failed", env.awsId, env.timeStr, none, none⟩

/-- `json.dumps` of an optional list: Python `None` becomes JSON null. -/
def optJ : Option (List String) → JVal
  | none => JVal.jnull
  | some l => JVal.jstrs l

/-- Python `str.lower()`; the automation values are ASCII text, where it
agrees with per-character lower-casing. -/
def pyLower (s : String) : String := String.mk (s.data.map Char.toLower)

/-- `lambda_handler` (src/main.py:663-711): validate the tag key and value,
then route on (lower-cased automation, resource) to one executor pipeline —
each pipeline first runs the tagging-search locator, then the executor —
and render the envelope; unmatched combinations produce the failure
envelope.  A raising EKS start run propagates as `Except.error`. -/
def lambda_handler (env : Env) (d : Details) :
    Except String (List Ev × Envelope) :=
  if check_payload_tag d = "Invalid Tag Key" ∨
      check_payload_tag d = "Invalid Tag Value" then
    Except.ok ([], failedResponse env)
  else if pyLower d.automation = "stop" ∧ d.resource = "ec2" then
    let r := auto_stop_instance env env.taggedInstances
    Except.ok (Ev.getResources ("ec2:instance") :: r.1,
      response env ("Stop EC2 instance") (optJ r.2))
  else if pyLower d.automation = "start" ∧ d.resource = "ec2" then
    let r := auto_start_instance env env.taggedInstances
    Except.ok (Ev.getResources ("ec2:instance") :: r.1,
      response env ("Start EC2 instance") (optJ r.2))
  else if pyLower d.automation = "stop" ∧ d.resource = "rds" then
    let r := auto_stop_dbinstance env env.taggedDbs
    Except.ok (Ev.getResources ("rds:db") :: r.1,
      response env ("Stop RDS") (JVal.jstrs r.2))
  else if pyLower d.automation = "start" ∧ d.resource = "rds" then
    let r := auto_start_dbinstance env env.taggedDbs
    Except.ok (Ev.getResources ("rds:db") :: r.1,
      response env ("Start RDS") (JVal.jstrs r.2))
  else if pyLower d.automation = "stop" ∧ d.resource = "eks" then
    let r := auto_stop_eks_nodegroup env env.taggedNodegroups
    Except.ok (Ev.getResources ("eks:nodegroup") :: r.1,
      response env ("Stop EKS node group") (JVal.jngs r.2))
  else if pyLower d.automation = "start" ∧ d.resource = "eks" then
    match auto_start_eks_nodegroup env env.taggedNodegroups with
    | Except.error e => Except.error e
    | Except.ok r =>
        Except.ok (Ev.getResources ("eks:nodegroup") :: r.1,
          response env ("Start EKS node group") (JVal.jngs r.2))
  else
    Except.ok ([], failedResponse env)

/-- C6: an unrecognized tag key or tag value makes the dispatcher return the
Failed envelope carrying only Status, AWS_ID and Time (Action and
ResourceList absent), with an empty trace: no provider API call of any kind
is made. -/
theorem c6_invalid_tag_failed_no_calls (env : Env) (d : Details)
    (h : d.tagKey ∉ tagKeyList ∨ d.tagValue ∉ tagValueList) :
    lambda_handler env d = Except.ok ([], failedResponse env) := by
  have hcheck : check_payload_tag d = "Invalid Tag Key" ∨
      check_payload_tag d = "Invalid Tag Value" := by
    unfold check_payload_tag
    by_cases hk : tagKeyList.contains d.tagKey
    · have hv : d.tagValue ∉ tagValueList := by
        rcases h with h | h
        · exact absurd (by simpa [tagKeyList] using hk) h
        · exact h
      have hkm : d.tagKey ∈ tagKeyList := by simpa using hk
      right
      simp [hkm, hv]
    · have hkm : d.tagKey ∉ tagKeyList := by simpa using hk
      left
      simp [hkm]
  unfold lambda_handler
  rw [if_pos hcheck]

/-- Witness for c6_invalid_tag_failed_no_calls: tag value "Weekend" is not
recognized. -/
theorem c6_invalid_tag_failed_no_calls_witness :
    lambda_handler envC3
        ⟨"stop", "ec2", "DCP/AutoStartStop", "Weekend"⟩ =
      Except.ok ([], failedResponse envC3) :=
  c6_invalid_tag_failed_no_calls envC3 _ (Or.inr (by decide))

/-- C4 (code-bug evidence): the end-to-end stop request over two located
instances — "i-a" already stopped (empty status list), "i-b" running —
produces Status "Successful" and Action "Stop EC2 instance" as the claim
says, but the batched stop call and the returned ResourceList contain BOTH
identifiers, not only the running one, because of the `== False` filter slip
in `auto_stop_instance`. -/
theorem c4_e2e_stop_code_behavior :
    lambda_handler envC3 ⟨"stop", "ec2", "DCP/AutoStartStop", "OfficeHour"⟩ =
      Except.ok
        ([Ev.getResources ("ec2:instance"),
          Ev.describeInstanceStatus "i-a", Ev.describeInstanceStatus "i-b",
          Ev.stopInstances ["i-a", "i-b"]],
         ⟨"Successful", "123456789012", "01 Jan 2026 - 00:00",
          some "Stop EC2 instance", some (JVal.jstrs ["i-a", "i-b"])⟩) := by
  rfl

/-- Empty cloud state: the locator finds nothing in any category. -/
def envEmpty : Env where
  taggedInstances := []
  taggedDbs := []
  taggedNodegroups := []
  instanceStatuses := fun _ => []
  dbDescr := fun _ => ⟨"available", "mysql", false⟩
  ngDescr := fun _ => ⟨⟨1, 5, 2⟩, [], "arn"⟩
  awsId := "123456789012"
  timeStr := "01 Jan 2026 - 00:00"

/-- C10: the compute-instance executors return Python None exactly when the
post-filter list is empty — so the ResourceList field of the Successful
envelope is JSON null — while the database and node-group executors return
an empty list in the analogous case, giving an empty-array ResourceList.
The final six conjuncts evaluate the handler on an empty locator result for
every category. -/
theorem c10_none_vs_empty_list (env : Env) (instances : List String) :
    ((auto_start_instance env instances).2 = none ↔
        ec2StartKept env instances = []) ∧
    ((auto_stop_instance env instances).2 = none ↔ instances = []) ∧
    (lambda_handler envEmpty ⟨"stop", "ec2", "DCP/AutoStartStop", "OfficeHour"⟩ =
      Except.ok ([Ev.getResources ("ec2:instance")],
        ⟨"Successful", "123456789012", "01 Jan 2026 - 00:00",
         some "Stop EC2 instance", some JVal.jnull⟩)) ∧
    (lambda_handler envEmpty ⟨"start", "ec2", "DCP/AutoStartStop", "OfficeHour"⟩ =
      Except.ok ([Ev.getResources ("ec2:instance")],
        ⟨"Successful", "123456789012", "01 Jan 2026 - 00:00",
         some "Start EC2 instance", some JVal.jnull⟩)) ∧
    (lambda_handler envEmpty ⟨"stop", "rds", "DCP/AutoStartStop", "OfficeHour"⟩ =
      Except.ok ([Ev.getResources ("rds:db")],
        ⟨"Successful", "123456789012", "01 Jan 2026 - 00:00",
         some "Stop RDS", some (JVal.jstrs [])⟩)) ∧
    (lambda_handler envEmpty ⟨"start", "rds", "DCP/AutoStartStop", "OfficeHour"⟩ =
      Except.ok ([Ev.getResources ("rds:db")],
        ⟨"Successful", "123456789012", "01 Jan 2026 - 00:00",
         some "Start RDS", some (JVal.jstrs [])⟩)) ∧
    (lambda_handler envEmpty ⟨"stop", "eks", "DCP/AutoStartStop", "OfficeHour"⟩ =
      Except.ok ([Ev.getResources ("eks:nodegroup")],
        ⟨"Successful", "123456789012", "01 Jan 2026 - 00:00",
         some "Stop EKS node group", some (JVal.jngs [])⟩)) ∧
    (lambda_handler envEmpty ⟨"start", "eks", "DCP/AutoStartStop", "OfficeHour"⟩ =
      Except.ok ([Ev.getResources ("eks:nodegroup")],
        ⟨"Successful", "123456789012", "01 Jan 2026 - 00:00",
         some "Start EKS node group", some (JVal.jngs [])⟩)) := by
  refine ⟨?_, ?_, by rfl, by rfl, by rfl, by rfl, by rfl, by rfl⟩
  · unfold auto_start_instance ec2StartKept
    rw [removeLoop_eq_filter]
    simp only [Bool.not_not, List.length_eq_zero]
    split
    · next h => simp [h]
    · next h => simp [h]
  · unfold auto_stop_instance
    rw [removeLoop_eq_filter]
    simp only [pyListEqFalse, Bool.not_false, List.filter_true, List.length_eq_zero]
    split
    · next h => simp [h]
    · next h => simp [h]

end AutoStartStop
